import Mathlib

set_option maxRecDepth 4000

/-!
Verification of the autonomous mapping subsystem (`src/autonomous_mapper.py`,
class `AutonomousMapper`) against its natural-language specification.

Shallow embedding conventions:
* Python floats are modelled as `ℚ`.  All comparisons and branch conditions
  that decide the claims are exact (thresholds, counters, minima), so this is
  faithful for the properties at issue.
* Python's `%` on floats is `pyMod` (`a - b * ⌊a / b⌋`), Python's `round` is
  `pyRound` (round half to even, as CPython does).
* `math.cos`/`math.sin` applied to `math.radians(θ)` are transcendental and are
  abstracted as an explicit parameter `trig : ℚ → ℚ × ℚ` (degrees ↦ the pair
  `(cos (radians θ), sin (radians θ))`); every theorem quantifies over `trig`
  or instantiates it at a point where the true value is exact
  (e.g. heading 0 has `trig 0 = (1, 0)`).
* `math.sqrt(e) < c` / `> c` on nonnegative `e`, `c` is embedded as the
  equivalent squared comparison `e < c^2` / `e > c^2`.
* Python dicts keyed by integers are insertion-ordered association lists;
  a Python `set` of grid keys is a list used up to membership.
-/

namespace CarMapper

/-- Python's `%` on rationals/floats: `a - b * ⌊a / b⌋`; for `b > 0` the
result lies in `[0, b)` whatever the sign of `a`. -/
def pyMod (a b : ℚ) : ℚ := a - b * (⌊a / b⌋ : ℤ)

/-- Python's built-in `round` to an integer: round half to even. -/
def pyRound (q : ℚ) : ℤ :=
  let f := ⌊q⌋
  let r := q - f
  if r < 1/2 then f
  else if 1/2 < r then f + 1
  else if 2 ∣ f then f else f + 1

/-- Lookup in an insertion-ordered association list (a Python dict). -/
def alistGet {α β : Type} [DecidableEq α] (k : α) : List (α × β) → Option β
  | [] => none
  | (k', v) :: rest => if k = k' then some v else alistGet k rest

/-- `d[k] = v` on an insertion-ordered association list: update in place if
the key is present, append at the end otherwise (CPython dict semantics). -/
def alistSet {α β : Type} [DecidableEq α] (k : α) (v : β) : List (α × β) → List (α × β)
  | [] => [(k, v)]
  | (k', v') :: rest => if k = k' then (k', v) :: rest else (k', v') :: alistSet k v rest

/-- `self.map_data`: dict grid-x ↦ (dict grid-y ↦ distance in cm). -/
abbrev OccMap : Type := List (ℤ × List (ℤ × ℚ))

/-- A scan profile: relative angle (degrees) ↦ averaged distance (cm). -/
abbrev Scan : Type := List (ℤ × ℚ)

/-- Two-level dict lookup `self.map_data[x][y]` (as an `Option`). -/
def mapGet (m : OccMap) (x y : ℤ) : Option ℚ :=
  match alistGet x m with
  | none => none
  | some inner => alistGet y inner

/-- Number of grid-x columns: `len(self.map_data)` (what `_check_completion`
and the localization gates actually measure). -/
def columns (m : OccMap) : ℕ := m.length

/-- Total number of stored `(x, y)` cells of the map. -/
def totalCells (m : OccMap) : ℕ := (m.map (fun p => p.2.length)).sum

/-- The map-update body of `_update_map` for one cell: insert the distance if
the cell is absent, otherwise keep the minimum of old and new. -/
def observe (m : OccMap) (x y : ℤ) (d : ℚ) : OccMap :=
  match alistGet x m with
  | none => alistSet x [(y, d)] m
  | some inner =>
    match alistGet y inner with
    | none => alistSet x (alistSet y d inner) m
    | some v => alistSet x (alistSet y (min v d) inner) m

/-- Actions emitted by `_plan_next_move` and consumed by `_execute_move`. -/
inductive Action : Type where
  | complete : Action
  | backup (distance : ℚ) : Action
  | turn (angle : ℚ) : Action
  | move (angle : ℤ) (distance : ℚ) : Action
deriving DecidableEq, Repr

/-- The mutable fields of `AutonomousMapper` that the mapping cycle reads or
writes (configuration constants are inlined below at their `__init__`
defaults). `lastCellCount = none` models the `hasattr` guard before
`_last_cell_count` is first assigned. -/
structure MapperState : Type where
  currentPosition : ℚ × ℚ
  currentHeading : ℚ
  mapData : OccMap
  consecutiveTurns : ℕ
  mapStabilityCounter : ℕ
  lastCellCount : Option ℕ
  exploredPositions : List (ℤ × ℤ)
  positionVisitCount : List ((ℤ × ℤ) × ℕ)
  noProgressCounter : ℕ
  backupAttempts : ℕ
  localizationConfidence : ℚ
deriving DecidableEq, Repr

/-- The state established by `AutonomousMapper.__init__`. -/
def initialState : MapperState :=
  { currentPosition := (0, 0)
    currentHeading := 0
    mapData := []
    consecutiveTurns := 0
    mapStabilityCounter := 0
    lastCellCount := none
    exploredPositions := []
    positionVisitCount := []
    noProgressCounter := 0
    backupAttempts := 0
    localizationConfidence := 0 }

/-- `self.use_map_localization` (constant `True`). -/
def useMapLocalization : Bool := true

/-- `self.localization_enabled` (constant `True`). -/
def localizationEnabled : Bool := true

/-- `self.gap_exploration_enabled` (constant `True`). -/
def gapExplorationEnabled : Bool := true

/-- `_calculate_clearance`: minimum profile distance among sampled angles
within ±30° of the target direction; `0` when no sample is in the cone
(the `float('inf')` sentinel case). -/
def calculateClearance (scan : Scan) (target : ℤ) : ℚ :=
  match scan.filter (fun p => |p.1 - target| ≤ 30) with
  | [] => 0
  | h :: t => t.foldl (fun acc p => min acc p.2) h.2

/-- Stable insertion of one reading into an angle-sorted list (equal angles
keep their original relative order, as CPython's stable `sort` does). -/
def insertByAngle (p : ℤ × ℚ) : List (ℤ × ℚ) → List (ℤ × ℚ)
  | [] => [p]
  | q :: rest => if q.1 ≤ p.1 then q :: insertByAngle p rest else p :: q :: rest

/-- `readings_in_cone.sort(key=lambda x: x[0])`: stable sort by angle. -/
def sortByAngle (l : List (ℤ × ℚ)) : List (ℤ × ℚ) :=
  l.foldl (fun acc p => insertByAngle p acc) []

/-- The adjacent-triple loop of `_detect_gap` (`for i in range(1, len-1)`):
a middle reading exceeding both neighbours by more than 30 cm scores
`(middle - max(neighbours)) / 10`, otherwise a middle reading below the
small-space threshold 80 cm scores `(80 - middle) / 20`. -/
def gapTriples : List (ℤ × ℚ) → ℚ
  | (_, p) :: (a, c) :: (b, n) :: rest =>
    (if p + 30 < c ∧ n + 30 < c then (c - max p n) / 10
     else if c < 80 then (80 - c) / 20 else 0)
      + gapTriples ((a, c) :: (b, n) :: rest)
  | _ => 0

/-- `_detect_gap`: collect readings within ±45° of the target, require at
least three, sort by angle, and sum the triple scores. -/
def detectGap (scan : Scan) (target : ℤ) : ℚ :=
  if ¬gapExplorationEnabled then 0
  else
    let cone := scan.filter (fun p => |p.1 - target| ≤ 45)
    if cone.length < 3 then 0
    else gapTriples (sortByAngle cone)

/-- The 8 neighbouring grid cells probed by `_calculate_scan_match`, in the
source's row-major iteration order (`nx` outer, `ny` inner, centre skipped). -/
def neighborCells (gx gy : ℤ) : List (ℤ × ℤ) :=
  [(gx - 1, gy - 1), (gx - 1, gy), (gx - 1, gy + 1),
   (gx, gy - 1), (gx, gy + 1),
   (gx + 1, gy - 1), (gx + 1, gy), (gx + 1, gy + 1)]

/-- The neighbour-credit loop of `_calculate_scan_match`: the first stored
neighbour whose distance agrees within 30 cm contributes
`(30 - diff) / 60`; stored neighbours that disagree do not stop the search. -/
def neighborScore (m : OccMap) (distance : ℚ) : List (ℤ × ℤ) → ℚ
  | [] => 0
  | (nx, ny) :: rest =>
    match mapGet m nx ny with
    | some nd =>
      if |distance - nd| < 30 then (30 - |distance - nd|) / 60
      else neighborScore m distance rest
    | none => neighborScore m distance rest

/-- One iteration of the profile loop of `_calculate_scan_match`: skip an
invalid reading, otherwise project it to a grid cell at the test pose and
add the exact-cell credit (`(20 - diff)/20` within 20 cm) or the neighbour
credit, counting the point. -/
def scanMatchStep (trig : ℚ → ℚ × ℚ) (m : OccMap) (tx ty th : ℚ)
    (acc : ℚ × ℕ) (p : ℤ × ℚ) : ℚ × ℕ :=
  if p.2 ≤ 0 ∨ 300 < p.2 then acc
  else
    let c := (trig (th + p.1)).1
    let s := (trig (th + p.1)).2
    let gx := pyRound (tx + p.2 * c / 10)
    let gy := pyRound (ty + p.2 * s / 10)
    let add :=
      match mapGet m gx gy with
      | some md =>
        if |p.2 - md| < 20 then (20 - |p.2 - md|) / 20 else 0
      | none => neighborScore m p.2 (neighborCells gx gy)
    (acc.1 + add, acc.2 + 1)

/-- `_calculate_scan_match`: fold the profile loop over the scan and divide
the accumulated score by `max(total_points, 1)`. -/
def calculateScanMatch (trig : ℚ → ℚ × ℚ) (scan : Scan) (m : OccMap)
    (tx ty th : ℚ) : ℚ :=
  let r := scan.foldl (scanMatchStep trig m tx ty th) (0, 0)
  r.1 / max (r.2 : ℚ) 1

/-- `range(-search_radius, search_radius + 1, 10)` with the default
`localization_search_radius = 50`. -/
def searchOffsets : List ℤ := [-50, -40, -30, -20, -10, 0, 10, 20, 30, 40, 50]

/-- `range(-angle_search_range, angle_search_range + 1, 10)` with
`angle_search_range = 30`. -/
def headingOffsets : List ℤ := [-30, -20, -10, 0, 10, 20, 30]

/-- The running best of the localization search
(`best_match_score`, `best_position`, `best_heading`). -/
structure LocBest : Type where
  score : ℚ
  pos : ℚ × ℚ
  heading : ℚ
deriving DecidableEq, Repr

/-- One candidate evaluation of `_perform_localization`'s search: score the
test pose `(x + dx, y + dy, (heading + off) % 360)` and keep it when it
strictly beats the best so far. -/
def locCandidate (trig : ℚ → ℚ × ℚ) (scan : Scan) (m : OccMap)
    (x y heading : ℚ) (dx dy : ℤ) (acc : LocBest) (off : ℤ) : LocBest :=
  let tx := x + dx
  let ty := y + dy
  let th := pyMod (heading + off) 360
  let sc := calculateScanMatch trig scan m tx ty th
  if acc.score < sc then ⟨sc, (tx, ty), th⟩ else acc

/-- The innermost loop of the search: heading offsets at a fixed `(dx, dy)`. -/
def locInner (trig : ℚ → ℚ × ℚ) (scan : Scan) (m : OccMap)
    (x y heading : ℚ) (dx : ℤ) (acc : LocBest) (dy : ℤ) : LocBest :=
  headingOffsets.foldl (locCandidate trig scan m x y heading dx dy) acc

/-- The middle loop of the search: `dy` offsets at a fixed `dx`. -/
def locMid (trig : ℚ → ℚ × ℚ) (scan : Scan) (m : OccMap)
    (x y heading : ℚ) (acc : LocBest) (dx : ℤ) : LocBest :=
  searchOffsets.foldl (locInner trig scan m x y heading dx) acc

/-- The brute-force candidate loop of `_perform_localization`: `dx` outer,
`dy` middle, heading offset inner, keeping the first strictly better
candidate. -/
def localizationSearch (trig : ℚ → ℚ × ℚ) (scan : Scan) (m : OccMap)
    (x y heading : ℚ) : LocBest :=
  searchOffsets.foldl (locMid trig scan m x y heading) ⟨0, (x, y), heading⟩

/-- `_perform_localization`.  Note the source's `else` attaches to the outer
`if best_match_score > confidence_threshold`: when the best score is in
`(0.6, 0.8]` and the positional correction is at most 2 units, neither the
pose nor the confidence is touched.  `position_change > 2` is embedded as
the squared comparison `4 < dx^2 + dy^2`. -/
def performLocalization (trig : ℚ → ℚ × ℚ) (scan : Scan) (s : MapperState) :
    MapperState :=
  if ¬useMapLocalization ∨ columns s.mapData < 5 then s
  else
    let best := localizationSearch trig scan s.mapData
      s.currentPosition.1 s.currentPosition.2 s.currentHeading
    if (6 : ℚ)/10 < best.score then
      let dx := best.pos.1 - s.currentPosition.1
      let dy := best.pos.2 - s.currentPosition.2
      if 4 < dx ^ 2 + dy ^ 2 ∨ (8 : ℚ)/10 < best.score then
        { s with currentPosition := best.pos
                 currentHeading := best.heading
                 localizationConfidence := best.score }
      else s
    else { s with localizationConfidence := best.score }

/-- The tail of `_update_map`: run localization only when enabled and
`len(self.map_data) > 10`. -/
def gatedLocalization (trig : ℚ → ℚ × ℚ) (scan : Scan) (s : MapperState) :
    MapperState :=
  if localizationEnabled ∧ 10 < columns s.mapData then
    performLocalization trig scan s
  else s

/-- `_update_map`: project every profile point from the current pose
(resolution 10 cm per unit), `observe` it into the map, then run the gated
localization on the updated state. -/
def updateMap (trig : ℚ → ℚ × ℚ) (scan : Scan) (s : MapperState) :
    MapperState :=
  let m := scan.foldl (fun m p =>
    let c := (trig (s.currentHeading + p.1)).1
    let sn := (trig (s.currentHeading + p.1)).2
    let gx := pyRound (s.currentPosition.1 + p.2 * c / 10)
    let gy := pyRound (s.currentPosition.2 + p.2 * sn / 10)
    observe m gx gy p.2) s.mapData
  gatedLocalization trig scan { s with mapData := m }

/-- Method 3 of `_check_completion` (position revisiting): the visit counter
for the rounded current position is bumped only when that position is
already in `explored_positions`; completion at 3 or more; the first visit
merely records the position. -/
def checkRevisit (s : MapperState) : Bool × MapperState :=
  let key := (pyRound s.currentPosition.1, pyRound s.currentPosition.2)
  if key ∈ s.exploredPositions then
    let c := ((alistGet key s.positionVisitCount).getD 0) + 1
    let s1 := { s with positionVisitCount := alistSet key c s.positionVisitCount }
    if 3 ≤ c then (true, s1) else (false, s1)
  else
    (false, { s with exploredPositions := s.exploredPositions ++ [key] })

/-- `_check_completion`: (1) consecutive-turn limit, (2) map stability
measured on `len(self.map_data)` — the number of grid-x columns — with the
`hasattr` guard on `_last_cell_count`, (3) position revisiting. -/
def checkCompletion (s : MapperState) : Bool × MapperState :=
  if 5 ≤ s.consecutiveTurns then (true, s)
  else
    let currentCells := columns s.mapData
    match s.lastCellCount with
    | some last =>
      if currentCells = last then
        let s1 := { s with mapStabilityCounter := s.mapStabilityCounter + 1 }
        if 10 ≤ s1.mapStabilityCounter then (true, s1)
        else checkRevisit { s1 with lastCellCount := some currentCells }
      else
        checkRevisit { s with mapStabilityCounter := 0
                              lastCellCount := some currentCells }
    | none => checkRevisit { s with lastCellCount := some currentCells }

/-- The candidate relative headings of `_plan_next_move`
(`range(-90, 91, 30)`). -/
def candidateAngles : List ℤ := [-90, -60, -30, 0, 30, 60, 90]

/-- The running result of the direction-scoring loop
(`best_angle`, `best_score`, `gap_found`). -/
structure ScoredDirs : Type where
  bestAngle : ℤ
  bestScore : ℚ
  gapFound : Bool
deriving DecidableEq, Repr

/-- One iteration of the direction-scoring loop of `_plan_next_move`:
clearance plus twice the gap score when the latter is positive; `gap_found`
latches on any candidate with a positive gap score, not only the winner. -/
def scoreStep (scan : Scan) (acc : ScoredDirs) (angle : ℤ) : ScoredDirs :=
  let clearance := calculateClearance scan angle
  let gap := if gapExplorationEnabled then detectGap scan angle else 0
  let combined := if 0 < gap then clearance + gap * 2 else clearance
  let acc1 := if 0 < gap then { acc with gapFound := true } else acc
  if acc1.bestScore < combined then
    { acc1 with bestAngle := angle, bestScore := combined }
  else acc1

/-- The direction-scoring loop of `_plan_next_move` over the seven
candidate headings. -/
def scoreDirections (scan : Scan) : ScoredDirs :=
  candidateAngles.foldl (scoreStep scan) ⟨0, 0, false⟩

/-- `_plan_next_move`: completion check first, then the stuck/backup check,
then direction scoring with the turn/move decision. -/
def planNextMove (scan : Scan) (s : MapperState) : Action × MapperState :=
  let r0 := checkCompletion s
  if r0.1 then (Action.complete, r0.2)
  else
    let s := r0.2
    if 3 ≤ s.noProgressCounter then
      if s.backupAttempts < 3 then
        (Action.backup 25, { s with backupAttempts := s.backupAttempts + 1 })
      else (Action.complete, s)
    else
      let r := scoreDirections scan
      if r.bestScore < 50 then
        let s1 := { s with consecutiveTurns := s.consecutiveTurns + 1 }
        if 5 ≤ s1.consecutiveTurns then (Action.complete, s1)
        else (Action.turn 45, s1)
      else
        let s1 := { s with consecutiveTurns := 0 }
        let d : ℚ := if r.bestScore < 80 then 15 else 30
        let d := if r.gapFound then min d 20 else d
        (Action.move r.bestAngle d, s1)

/-- `_execute_move`: dead-reckoning state updates of the executed action.
The move branch's `distance_moved < 5` (`distance_moved` being the norm of
the *grid-unit* deltas) is embedded as the squared comparison
`dx^2 + dy^2 < 25`. -/
def executeMove (trig : ℚ → ℚ × ℚ) (a : Action) (s : MapperState) :
    MapperState :=
  match a with
  | Action.turn angle =>
    { s with currentHeading := pyMod (s.currentHeading + angle) 360 }
  | Action.move angle distance =>
    let s :=
      if 10 < |angle| then
        { s with currentHeading := pyMod (s.currentHeading + angle) 360 }
      else s
    let c := (trig s.currentHeading).1
    let sn := (trig s.currentHeading).2
    let dx := distance * c / 10
    let dy := distance * sn / 10
    let s := { s with currentPosition :=
      (s.currentPosition.1 + dx, s.currentPosition.2 + dy) }
    if dx ^ 2 + dy ^ 2 < 25 then
      { s with noProgressCounter := s.noProgressCounter + 1 }
    else { s with noProgressCounter := 0 }
  | Action.backup distance =>
    let c := (trig (pyMod (s.currentHeading + 180) 360)).1
    let sn := (trig (pyMod (s.currentHeading + 180) 360)).2
    let dx := distance * c / 10
    let dy := distance * sn / 10
    { s with currentPosition :=
      (s.currentPosition.1 + dx, s.currentPosition.2 + dy)
             noProgressCounter := 0 }
  | Action.complete => s

/-- One full mapping cycle without the hardware side effects:
`_update_map` (including gated localization) → `_plan_next_move` →
`_execute_move`; iterated `n` times, returning the emitted actions. -/
def runCycles (trig : ℚ → ℚ × ℚ) (scan : Scan) :
    ℕ → MapperState → List Action
  | 0, _ => []
  | n + 1, s =>
    let s1 := updateMap trig scan s
    let r := planNextMove scan s1
    r.1 :: runCycles trig scan n (executeMove trig r.1 r.2)

/-- Specification-side reading of one candidate's combined direction score:
clearance, plus twice the gap score when the gap score is positive. -/
def combinedScore (scan : Scan) (angle : ℤ) : ℚ :=
  let clearance := calculateClearance scan angle
  let gap := if gapExplorationEnabled then detectGap scan angle else 0
  if 0 < gap then clearance + gap * 2 else clearance

/-- Specification-side winning combined score: the maximum combined score
over the seven candidate headings (at least 0, the loop's initial best). -/
def winningScore (scan : Scan) : ℚ :=
  candidateAngles.foldl (fun m a => max m (combinedScore scan a)) 0

/-- Specification-side reading of `gap_found`: some candidate heading has a
positive gap score. -/
def anyGap (scan : Scan) : Bool :=
  candidateAngles.any (fun a =>
    decide (0 < (if gapExplorationEnabled then detectGap scan a else 0)))

/-! ### Concrete inputs used by counterexamples and witnesses -/

/-- The exact cosine/sine pair at headings that are multiples of 360°:
`trig0 θ = (1, 0)`, the true value at heading 0. -/
def trig0 : ℚ → ℚ × ℚ := fun _ => (1, 0)

/-- A profile whose clearest direction (60°, clearance 300 cm) has no gap
bonus, while direction −60° has one (middle reading 200 cm against
neighbours of 40 cm). -/
def scan1 : Scan := [(-90, 40), (-60, 200), (-30, 40), (90, 300)]

/-- A profile whose winning direction (0°) has clearance 60 cm and gap
bonus 14, for a combined score of 88. -/
def scan2 : Scan := [(0, 60), (35, 200), (44, 60)]

/-- A 12-column map: the cell `(10, 0)` stores 94 cm, and 11 far-away
columns at `x = 200..210` (unreachable by the ±50-unit search from the
origin) push the column count over the localization gate. -/
def m2 : OccMap :=
  (10, [(0, 94)]) ::
    (List.range 11).map (fun i => ((200 + i : ℤ), [((0 : ℤ), (50 : ℚ))]))

/-- A single-point profile: 100 cm straight ahead.  Under `trig0` a
candidate `(tx, ty)` projects it to cell `(tx + 10, ty)`, so only the
candidate at the current position hits the stored cell `(10, 0)`,
scoring `(20 - |100 - 94|)/20 = 7/10`. -/
def scanC : Scan := [(0, 100)]

/-- The initial state equipped with the 12-column map `m2`. -/
def locState : MapperState := { initialState with mapData := m2 }

/-- A state holding a 1-column, 2-cell map obtained by observing the new
cell `(0, 5)` under the already-present column `x = 0`, with the previous
cycle's `_last_cell_count = 1` and a stability counter of 1. -/
def stabState : MapperState :=
  { initialState with
      mapData := observe [(0, [(0, 40)])] 0 5 60
      lastCellCount := some 1
      mapStabilityCounter := 1 }

/-- `_perform_localization`'s search result at a state's own pose and map. -/
def searchAt (trig : ℚ → ℚ × ℚ) (scan : Scan) (s : MapperState) : LocBest :=
  localizationSearch trig scan s.mapData
    s.currentPosition.1 s.currentPosition.2 s.currentHeading

/-! ### Helper lemmas -/

theorem foldl_preserve_mem {α β : Type} (P : α → Prop) (f : α → β → α) :
    ∀ (l : List β) (init : α), P init →
      (∀ a b, b ∈ l → P a → P (f a b)) → P (l.foldl f init)
  | [], _, h0, _ => h0
  | x :: xs, init, h0, hstep => by
    simp only [List.foldl_cons]
    exact foldl_preserve_mem P f xs (f init x)
      (hstep init x (List.mem_cons_self x xs) h0)
      (fun a b hb ha => hstep a b (List.mem_cons_of_mem _ hb) ha)

theorem pyMod_bounds (a b : ℚ) (hb : 0 < b) :
    0 ≤ pyMod a b ∧ pyMod a b < b := by
  have h1 : pyMod a b = b * Int.fract (a / b) := by
    unfold pyMod
    simp only [Int.fract]
    field_simp
  constructor
  · rw [h1]
    exact mul_nonneg hb.le (Int.fract_nonneg _)
  · rw [h1]
    calc b * Int.fract (a / b) < b * 1 :=
          mul_lt_mul_of_pos_left (Int.fract_lt_one _) hb
      _ = b := mul_one b

theorem ite_lt_eq_max (m c : ℚ) : (if m < c then c else m) = max m c := by
  rcases le_or_lt c m with h | h
  · rw [if_neg (not_lt.2 h), max_eq_left h]
  · rw [if_pos h, max_eq_right h.le]

theorem alistGet_alistSet_self {α β : Type} [DecidableEq α] (k : α) (v : β) :
    ∀ l : List (α × β), alistGet k (alistSet k v l) = some v
  | [] => by simp [alistSet, alistGet]
  | (k', v') :: rest => by
    by_cases h : k = k'
    · simp [alistSet, alistGet, h]
    · simp [alistSet, alistGet, h, alistGet_alistSet_self k v rest]

theorem mem_alistSet {α β : Type} [DecidableEq α] (k : α) (v : β)
    (p : α × β) : ∀ l : List (α × β),
    p ∈ alistSet k v l → p = (k, v) ∨ p ∈ l
  | [] => by simp [alistSet]
  | (k', v') :: rest => by
    by_cases h : k = k'
    · subst h
      intro hp
      have he : alistSet k v ((k, v') :: rest) = (k, v) :: rest := by
        simp [alistSet]
      rw [he] at hp
      rcases List.mem_cons.1 hp with rfl | hp <;> tauto
    · intro hp
      have he : alistSet k v ((k', v') :: rest) =
          (k', v') :: alistSet k v rest := by
        simp [alistSet, h]
      rw [he] at hp
      rcases List.mem_cons.1 hp with rfl | hp
      · tauto
      · rcases mem_alistSet k v p rest hp with h1 | h1 <;> tauto

theorem mapGet_observe (m : OccMap) (x y : ℤ) (d : ℚ) :
    mapGet (observe m x y d) x y =
      some ((mapGet m x y).elim d (fun v => min v d)) := by
  cases h1 : alistGet x m with
  | none =>
    simp [observe, mapGet, h1, alistGet_alistSet_self, alistGet]
  | some inner =>
    cases h2 : alistGet y inner with
    | none => simp [observe, mapGet, h1, h2, alistGet_alistSet_self]
    | some v => simp [observe, mapGet, h1, h2, alistGet_alistSet_self]

theorem columns_le_totalCells :
    ∀ m : OccMap, (∀ p ∈ m, p.2 ≠ []) → columns m ≤ totalCells m
  | [] => by simp [columns, totalCells]
  | p :: rest => by
    intro h
    have h1 : p.2 ≠ [] := h p (List.mem_cons_self _ _)
    have h2 : 1 ≤ p.2.length := List.length_pos.2 h1
    have h3 := columns_le_totalCells rest
      (fun q hq => h q (List.mem_cons_of_mem _ hq))
    simp only [columns, totalCells, List.length_cons, List.map_cons,
      List.sum_cons] at *
    omega

theorem alistSet_ne_nil {α β : Type} [DecidableEq α] (k : α) (v : β) :
    ∀ l : List (α × β), alistSet k v l ≠ []
  | [] => by simp [alistSet]
  | (k', v') :: rest => by
    by_cases h : k = k' <;> simp [alistSet, h]

theorem observe_wf (m : OccMap) (x y : ℤ) (d : ℚ)
    (h : ∀ p ∈ m, p.2 ≠ []) : ∀ p ∈ observe m x y d, p.2 ≠ [] := by
  intro p hp
  unfold observe at hp
  cases h1 : alistGet x m with
  | none =>
    rw [h1] at hp
    rcases mem_alistSet _ _ _ _ hp with rfl | hp2
    · simp
    · exact h _ hp2
  | some inner =>
    rw [h1] at hp
    dsimp only at hp
    cases h2 : alistGet y inner with
    | none =>
      rw [h2] at hp
      dsimp only at hp
      rcases mem_alistSet _ _ _ _ hp with rfl | hp2
      · exact alistSet_ne_nil _ _ _
      · exact h _ hp2
    | some v =>
      rw [h2] at hp
      dsimp only at hp
      rcases mem_alistSet _ _ _ _ hp with rfl | hp2
      · exact alistSet_ne_nil _ _ _
      · exact h _ hp2

theorem neighborScore_bounds (m : OccMap) (d : ℚ) :
    ∀ l : List (ℤ × ℤ), 0 ≤ neighborScore m d l ∧ neighborScore m d l ≤ 1/2
  | [] => by simp [neighborScore]
  | (nx, ny) :: rest => by
    have ih := neighborScore_bounds m d rest
    simp only [neighborScore]
    cases h : mapGet m nx ny with
    | none => exact ih
    | some nd =>
      dsimp only
      by_cases h2 : |d - nd| < 30
      · rw [if_pos h2]
        have h3 : 0 ≤ |d - nd| := abs_nonneg _
        constructor
        · apply div_nonneg _ (by norm_num)
          linarith
        · rw [div_le_iff (by norm_num : (0:ℚ) < 60)]
          linarith
      · rw [if_neg h2]
        exact ih

theorem scanMatchStep_bounds (trig : ℚ → ℚ × ℚ) (m : OccMap) (tx ty th : ℚ)
    (acc : ℚ × ℕ) (p : ℤ × ℚ) (h0 : 0 ≤ acc.1) (h1 : acc.1 ≤ (acc.2 : ℚ)) :
    0 ≤ (scanMatchStep trig m tx ty th acc p).1 ∧
      (scanMatchStep trig m tx ty th acc p).1 ≤
        ((scanMatchStep trig m tx ty th acc p).2 : ℚ) := by
  unfold scanMatchStep
  split
  · exact ⟨h0, h1⟩
  · have hadd : 0 ≤ (match mapGet m (pyRound (tx + p.2 * (trig (th + p.1)).1 / 10))
        (pyRound (ty + p.2 * (trig (th + p.1)).2 / 10)) with
      | some md => if |p.2 - md| < 20 then (20 - |p.2 - md|) / 20 else 0
      | none => neighborScore m p.2 (neighborCells
          (pyRound (tx + p.2 * (trig (th + p.1)).1 / 10))
          (pyRound (ty + p.2 * (trig (th + p.1)).2 / 10)))) ∧
      (match mapGet m (pyRound (tx + p.2 * (trig (th + p.1)).1 / 10))
        (pyRound (ty + p.2 * (trig (th + p.1)).2 / 10)) with
      | some md => if |p.2 - md| < 20 then (20 - |p.2 - md|) / 20 else 0
      | none => neighborScore m p.2 (neighborCells
          (pyRound (tx + p.2 * (trig (th + p.1)).1 / 10))
          (pyRound (ty + p.2 * (trig (th + p.1)).2 / 10)))) ≤ 1 := by
      cases h : mapGet m (pyRound (tx + p.2 * (trig (th + p.1)).1 / 10))
          (pyRound (ty + p.2 * (trig (th + p.1)).2 / 10)) with
      | some md =>
        dsimp only
        by_cases h2 : |p.2 - md| < 20
        · rw [if_pos h2]
          have h3 : 0 ≤ |p.2 - md| := abs_nonneg _
          constructor
          · apply div_nonneg _ (by norm_num)
            linarith
          · rw [div_le_one (by norm_num : (0:ℚ) < 20)]
            linarith
        · rw [if_neg h2]
          norm_num
      | none =>
        dsimp only
        have := neighborScore_bounds m p.2 (neighborCells
          (pyRound (tx + p.2 * (trig (th + p.1)).1 / 10))
          (pyRound (ty + p.2 * (trig (th + p.1)).2 / 10)))
        constructor
        · exact this.1
        · linarith [this.2]
    constructor
    · dsimp only
      linarith [hadd.1]
    · dsimp only
      push_cast
      linarith [hadd.2]

theorem calculateScanMatch_bounds (trig : ℚ → ℚ × ℚ) (scan : Scan)
    (m : OccMap) (tx ty th : ℚ) :
    0 ≤ calculateScanMatch trig scan m tx ty th ∧
      calculateScanMatch trig scan m tx ty th ≤ 1 := by
  have key : 0 ≤ (scan.foldl (scanMatchStep trig m tx ty th) (0, 0)).1 ∧
      (scan.foldl (scanMatchStep trig m tx ty th) (0, 0)).1 ≤
        ((scan.foldl (scanMatchStep trig m tx ty th) (0, 0)).2 : ℚ) := by
    apply foldl_preserve_mem
      (P := fun acc : ℚ × ℕ => 0 ≤ acc.1 ∧ acc.1 ≤ (acc.2 : ℚ))
    · simp
    · intro a b _ ha
      exact scanMatchStep_bounds trig m tx ty th a b ha.1 ha.2
  unfold calculateScanMatch
  have hmax : (0:ℚ) < max ((scan.foldl (scanMatchStep trig m tx ty th) (0, 0)).2 : ℚ) 1 :=
    lt_of_lt_of_le one_pos (le_max_right _ 1)
  constructor
  · exact div_nonneg key.1 hmax.le
  · rw [div_le_one hmax]
    exact key.2.trans (le_max_left _ 1)

theorem calculateScanMatch_invalid (trig : ℚ → ℚ × ℚ) (scan : Scan)
    (m : OccMap) (tx ty th : ℚ)
    (h : ∀ p ∈ scan, p.2 ≤ 0 ∨ 300 < p.2) :
    calculateScanMatch trig scan m tx ty th = 0 := by
  have key : (scan.foldl (scanMatchStep trig m tx ty th) (0, 0)) = ((0:ℚ), (0:ℕ)) := by
    apply foldl_preserve_mem (P := fun acc : ℚ × ℕ => acc = ((0:ℚ), (0:ℕ)))
    · rfl
    · intro a b hb ha
      unfold scanMatchStep
      rw [if_pos (h b hb)]
      exact ha
  unfold calculateScanMatch
  rw [key]
  norm_num

theorem localizationSearch_invalid (trig : ℚ → ℚ × ℚ) (scan : Scan)
    (m : OccMap) (x y hd : ℚ)
    (h : ∀ p ∈ scan, p.2 ≤ 0 ∨ 300 < p.2) :
    localizationSearch trig scan m x y hd = ⟨0, (x, y), hd⟩ := by
  unfold localizationSearch
  apply foldl_preserve_mem (P := fun b : LocBest => b = ⟨0, (x, y), hd⟩)
  · rfl
  · intro a dx _ ha
    unfold locMid
    apply foldl_preserve_mem (P := fun b : LocBest => b = ⟨0, (x, y), hd⟩)
    · exact ha
    · intro a' dy _ ha'
      unfold locInner
      apply foldl_preserve_mem (P := fun b : LocBest => b = ⟨0, (x, y), hd⟩)
      · exact ha'
      · intro a'' off _ ha''
        unfold locCandidate
        dsimp only
        rw [calculateScanMatch_invalid trig scan m _ _ _ h, ha'']
        simp

theorem performLocalization_pose_invalid (trig : ℚ → ℚ × ℚ) (scan : Scan)
    (s : MapperState) (h : ∀ p ∈ scan, p.2 ≤ 0 ∨ 300 < p.2) :
    (performLocalization trig scan s).currentPosition = s.currentPosition ∧
      (performLocalization trig scan s).currentHeading = s.currentHeading := by
  unfold performLocalization
  split
  · exact ⟨rfl, rfl⟩
  · rw [localizationSearch_invalid trig scan s.mapData _ _ _ h]
    rw [if_neg (by norm_num : ¬((6:ℚ)/10 < (LocBest.mk 0 (s.currentPosition.1, s.currentPosition.2) s.currentHeading).score))]
    exact ⟨rfl, rfl⟩

theorem scoreStep_spec (scan : Scan) (acc : ScoredDirs) (a : ℤ) :
    (scoreStep scan acc a).bestScore = max acc.bestScore (combinedScore scan a) ∧
      (scoreStep scan acc a).gapFound =
        (acc.gapFound ||
          decide (0 < (if gapExplorationEnabled then detectGap scan a else 0))) := by
  unfold scoreStep combinedScore
  by_cases hg : 0 < (if gapExplorationEnabled then detectGap scan a else 0)
  · simp only [if_pos hg, decide_eq_true hg, Bool.or_true]
    constructor
    · rw [apply_ite ScoredDirs.bestScore]
      dsimp only
      exact ite_lt_eq_max _ _
    · rw [apply_ite ScoredDirs.gapFound]
      dsimp only
      rw [ite_self]
  · simp only [if_neg hg, decide_eq_false hg, Bool.or_false]
    constructor
    · rw [apply_ite ScoredDirs.bestScore]
      dsimp only
      exact ite_lt_eq_max _ _
    · rw [apply_ite ScoredDirs.gapFound]
      dsimp only
      rw [ite_self]

theorem scoreFold_spec (scan : Scan) :
    ∀ (l : List ℤ) (acc : ScoredDirs),
    (l.foldl (scoreStep scan) acc).bestScore =
      l.foldl (fun m a => max m (combinedScore scan a)) acc.bestScore ∧
    (l.foldl (scoreStep scan) acc).gapFound =
      (acc.gapFound || l.any (fun a =>
        decide (0 < (if gapExplorationEnabled then detectGap scan a else 0))))
  | [], acc => by simp
  | a :: rest, acc => by
    simp only [List.foldl_cons, List.any_cons]
    have h := scoreStep_spec scan acc a
    have ih := scoreFold_spec scan rest (scoreStep scan acc a)
    refine ⟨?_, ?_⟩
    · rw [ih.1, h.1]
    · rw [ih.2, h.2, Bool.or_assoc]

theorem scoreDirections_spec (scan : Scan) :
    (scoreDirections scan).bestScore = winningScore scan ∧
      (scoreDirections scan).gapFound = anyGap scan := by
  have h := scoreFold_spec scan candidateAngles ⟨0, 0, false⟩
  unfold scoreDirections winningScore anyGap
  exact ⟨h.1, by rw [h.2, Bool.false_or]⟩

theorem checkRevisit_fixed (s : MapperState) :
    (checkRevisit s).2.noProgressCounter = s.noProgressCounter ∧
    (checkRevisit s).2.consecutiveTurns = s.consecutiveTurns ∧
    (checkRevisit s).2.mapStabilityCounter = s.mapStabilityCounter ∧
    (checkRevisit s).2.backupAttempts = s.backupAttempts ∧
    (checkRevisit s).2.lastCellCount = s.lastCellCount ∧
    (checkRevisit s).2.mapData = s.mapData := by
  unfold checkRevisit
  dsimp only
  split_ifs <;> exact ⟨rfl, rfl, rfl, rfl, rfl, rfl⟩

theorem checkCompletion_fixed (s : MapperState) :
    (checkCompletion s).2.noProgressCounter = s.noProgressCounter ∧
    (checkCompletion s).2.consecutiveTurns = s.consecutiveTurns ∧
    (checkCompletion s).2.backupAttempts = s.backupAttempts := by
  unfold checkCompletion
  dsimp only
  split
  · exact ⟨rfl, rfl, rfl⟩
  · split
    · split
      · split
        · exact ⟨rfl, rfl, rfl⟩
        · exact ⟨(checkRevisit_fixed _).1, (checkRevisit_fixed _).2.1,
            (checkRevisit_fixed _).2.2.2.1⟩
      · exact ⟨(checkRevisit_fixed _).1, (checkRevisit_fixed _).2.1,
          (checkRevisit_fixed _).2.2.2.1⟩
    · exact ⟨(checkRevisit_fixed _).1, (checkRevisit_fixed _).2.1,
        (checkRevisit_fixed _).2.2.2.1⟩

theorem localizationSearch_heading_range (trig : ℚ → ℚ × ℚ) (scan : Scan)
    (m : OccMap) (x y hd : ℚ) (h0 : 0 ≤ hd) (h1 : hd < 360) :
    0 ≤ (localizationSearch trig scan m x y hd).heading ∧
      (localizationSearch trig scan m x y hd).heading < 360 := by
  unfold localizationSearch
  apply foldl_preserve_mem (P := fun b : LocBest => 0 ≤ b.heading ∧ b.heading < 360)
  · exact ⟨h0, h1⟩
  · intro a dx _ ha
    unfold locMid
    apply foldl_preserve_mem (P := fun b : LocBest => 0 ≤ b.heading ∧ b.heading < 360)
    · exact ha
    · intro a' dy _ ha'
      unfold locInner
      apply foldl_preserve_mem (P := fun b : LocBest => 0 ≤ b.heading ∧ b.heading < 360)
      · exact ha'
      · intro a'' off _ ha''
        unfold locCandidate
        dsimp only
        split
        · exact pyMod_bounds _ _ (by norm_num)
        · exact ha''

/-! ### Evaluation of the localization search on the concrete inputs -/

/-- Under the constant `trig0` the test heading cannot influence one step of
the scan-match loop. -/
theorem scanMatchStep_trig0_th (m : OccMap) (tx ty th th' : ℚ) :
    scanMatchStep trig0 m tx ty th = scanMatchStep trig0 m tx ty th' := by
  funext acc p
  unfold scanMatchStep trig0
  rfl

/-- Under the constant `trig0` the test heading cannot influence the match
score. -/
theorem calculateScanMatch_trig0_th (scan : Scan) (m : OccMap) (tx ty th : ℚ) :
    calculateScanMatch trig0 scan m tx ty th =
      calculateScanMatch trig0 scan m tx ty 0 := by
  unfold calculateScanMatch
  rw [scanMatchStep_trig0_th m tx ty th 0]

set_option maxHeartbeats 8000000 in
/-- Candidate scores for the profile `scanC` against `m2` away from the
origin: every such candidate projects `scanC`'s single point to an absent
cell with no stored neighbours and scores 0 (the test heading is irrelevant
because `trig0` is constant). -/
theorem scanC_score (dx dy : ℤ) (hdx : dx ∈ searchOffsets)
    (hdy : dy ∈ searchOffsets) (hne : ¬(dx = 0 ∧ dy = 0)) (th : ℚ) :
    calculateScanMatch trig0 scanC m2 ((0:ℚ) + (dx:ℚ)) ((0:ℚ) + (dy:ℚ)) th = 0 := by
  rw [calculateScanMatch_trig0_th]
  simp only [searchOffsets, List.mem_cons, List.not_mem_nil, or_false] at hdx hdy
  rcases hdx with rfl | rfl | rfl | rfl | rfl | rfl | rfl | rfl | rfl | rfl | rfl <;>
    rcases hdy with rfl | rfl | rfl | rfl | rfl | rfl | rfl | rfl | rfl | rfl | rfl <;>
      first
        | with_unfolding_all decide
        | exact absurd ⟨rfl, rfl⟩ hne

theorem locInner_keep (dx dy : ℤ) (hdx : dx ∈ searchOffsets)
    (hdy : dy ∈ searchOffsets) (hne : ¬(dx = 0 ∧ dy = 0))
    (acc : LocBest) (hacc : 0 ≤ acc.score) :
    locInner trig0 scanC m2 0 0 0 dx acc dy = acc := by
  unfold locInner
  apply foldl_preserve_mem (P := fun b : LocBest => b = acc)
  · rfl
  · intro a off _ ha
    subst ha
    unfold locCandidate
    dsimp only
    rw [scanC_score dx dy hdx hdy hne _]
    rw [if_neg (not_lt.2 hacc)]

theorem locMid_keep (dx : ℤ) (hdx : dx ∈ searchOffsets) (hne : dx ≠ 0)
    (acc : LocBest) (hacc : 0 ≤ acc.score) :
    locMid trig0 scanC m2 0 0 0 acc dx = acc := by
  unfold locMid
  apply foldl_preserve_mem (P := fun b : LocBest => b = acc)
  · rfl
  · intro a dy hdy ha
    rw [ha]
    exact locInner_keep dx dy hdx hdy (fun hc => hne hc.1) acc hacc

/-- The inner heading loop at the origin candidate: the first offset `-30`
already scores `7/10` and captures the best, heading `(0 - 30) % 360 = 330`. -/
theorem locInner_origin_eval :
    locInner trig0 scanC m2 0 0 0 0 ⟨0, (0, 0), 0⟩ 0 = ⟨7/10, (0, 0), 330⟩ := by
  with_unfolding_all decide

theorem locMid_origin_eval :
    locMid trig0 scanC m2 0 0 0 ⟨0, (0, 0), 0⟩ 0 = ⟨7/10, (0, 0), 330⟩ := by
  unfold locMid
  have hsplit : searchOffsets = [-50, -40, -30, -20, -10] ++ 0 :: [10, 20, 30, 40, 50] := rfl
  rw [hsplit, List.foldl_append, List.foldl_cons]
  have h1 : List.foldl (locInner trig0 scanC m2 0 0 0 0) ⟨0, (0, 0), 0⟩
      [-50, -40, -30, -20, -10] = ⟨0, (0, 0), 0⟩ := by
    apply foldl_preserve_mem (P := fun b : LocBest => b = ⟨0, (0, 0), 0⟩)
    · rfl
    · intro a dy hdy ha
      subst ha
      have hdy' : dy ∈ searchOffsets := by
        rw [hsplit]
        exact List.mem_append_left _ hdy
      have hne : ¬((0:ℤ) = 0 ∧ dy = 0) := by
        rintro ⟨-, rfl⟩
        exact absurd hdy (by decide)
      exact locInner_keep 0 dy (by decide) hdy' hne _ (le_refl 0)
  rw [h1, locInner_origin_eval]
  apply foldl_preserve_mem (P := fun b : LocBest => b = ⟨7/10, (0, 0), 330⟩)
  · rfl
  · intro a dy hdy ha
    subst ha
    have hdy' : dy ∈ searchOffsets := by
      rw [hsplit]
      exact List.mem_append_right _ (List.mem_cons_of_mem _ hdy)
    have hne : ¬((0:ℤ) = 0 ∧ dy = 0) := by
      rintro ⟨-, rfl⟩
      exact absurd hdy (by decide)
    exact locInner_keep 0 dy (by decide) hdy' hne _ (by norm_num : (0:ℚ) ≤ 7/10)

/-- The full search for `scanC` against `m2` from the origin pose: best
score `7/10`, best position the origin itself, best heading `330`. -/
theorem searchAt_scanC :
    localizationSearch trig0 scanC m2 0 0 0 = ⟨7/10, (0, 0), 330⟩ := by
  unfold localizationSearch
  have hsplit : searchOffsets = [-50, -40, -30, -20, -10] ++ 0 :: [10, 20, 30, 40, 50] := rfl
  rw [hsplit, List.foldl_append, List.foldl_cons]
  have h1 : List.foldl (locMid trig0 scanC m2 0 0 0) ⟨0, (0, 0), 0⟩
      [-50, -40, -30, -20, -10] = ⟨0, (0, 0), 0⟩ := by
    apply foldl_preserve_mem (P := fun b : LocBest => b = ⟨0, (0, 0), 0⟩)
    · rfl
    · intro a dx hdx ha
      subst ha
      have hdx' : dx ∈ searchOffsets := by
        rw [hsplit]
        exact List.mem_append_left _ hdx
      have hne : dx ≠ 0 := by
        rintro rfl
        exact absurd hdx (by decide)
      exact locMid_keep dx hdx' hne _ (le_refl 0)
  rw [h1, locMid_origin_eval]
  apply foldl_preserve_mem (P := fun b : LocBest => b = ⟨7/10, (0, 0), 330⟩)
  · rfl
  · intro a dx hdx ha
    subst ha
    have hdx' : dx ∈ searchOffsets := by
      rw [hsplit]
      exact List.mem_append_right _ (List.mem_cons_of_mem _ hdx)
    have hne : dx ≠ 0 := by
      rintro rfl
      exact absurd hdx (by decide)
    exact locMid_keep dx hdx' hne _ (by norm_num : (0:ℚ) ≤ 7/10)

theorem searchAt_locState :
    searchAt trig0 scanC locState = ⟨7/10, (0, 0), 330⟩ := searchAt_scanC

/-! ### Claim theorems -/

/-- Claim C1 (code_bug): the progress check of `_execute_move` compares the
norm of the *grid-unit* deltas (`delta_x`, `delta_y`, both divided by the
10 cm resolution) against the 5-"cm" threshold, while the source's own
comment says "Less than 5cm movement = no progress" and its log message
prints the same value with a `cm` unit.  Executing the planner's default
`Move{heading_offset: 0, distance: 30}` from the initial pose (heading 0,
where `trig0` is the exact cosine/sine value) dead-reckons the position to
`(3, 0)` grid units — a 30 cm net displacement — yet increments the
no-progress counter from 0 to 1 instead of resetting it. -/
theorem noProgress_unit_bug :
    (executeMove trig0 (Action.move 0 30) initialState).currentPosition = (3, 0) ∧
    (executeMove trig0 (Action.move 0 30) initialState).noProgressCounter = 1 := by
  with_unfolding_all decide

/-- Claim C2 counterexample: with the 12-column map `m2` (above the
more-than-10-column localization gate), the one-point profile `scanC` and
the exact `trig0`, the localization search finds a best score of `7/10` —
inside `(0.6, 0.8]`, with zero positional correction — and the pass leaves
the whole state unchanged: the stored confidence stays `0` instead of
being refreshed to `7/10` as the claim asserts. -/
theorem confidence_not_refreshed :
    columns m2 = 12 ∧
    (searchAt trig0 scanC locState).score = 7/10 ∧
    locState.localizationConfidence = 0 ∧
    gatedLocalization trig0 scanC locState = locState := by
  refine ⟨by decide, by rw [searchAt_locState], rfl, ?_⟩
  unfold gatedLocalization
  rw [if_pos (by exact ⟨rfl, by decide⟩ :
    localizationEnabled = true ∧ 10 < columns locState.mapData)]
  unfold performLocalization
  rw [if_neg (by decide : ¬(¬useMapLocalization = true ∨ columns locState.mapData < 5))]
  dsimp only
  have hs : localizationSearch trig0 scanC locState.mapData
      locState.currentPosition.1 locState.currentPosition.2
      locState.currentHeading = ⟨7/10, (0, 0), 330⟩ := searchAt_scanC
  rw [hs]
  rw [if_pos (show (6:ℚ)/10 < (⟨7/10, (0, 0), 330⟩ : LocBest).score by norm_num)]
  rw [if_neg ?hno]
  case hno =>
    rintro (h | h)
    · norm_num [locState, initialState] at h
    · norm_num at h

/-- Claim C2 (amended): when `_perform_localization` runs its search, the
best score is recorded as the confidence when it is at most 0.6, or when a
correction is committed (score above 0.6 and squared positional correction
above 4 or score above 0.8, committing the candidate pose and its score);
but in the remaining case — score in `(0.6, 0.8]` and correction at most 2
grid units — the state is left entirely unchanged: neither the pose nor
the confidence is refreshed. -/
theorem localization_confidence_rule (trig : ℚ → ℚ × ℚ) (scan : Scan)
    (s : MapperState) (b : LocBest) (hb : searchAt trig scan s = b)
    (h5 : 5 ≤ columns s.mapData) :
    (b.score ≤ 6/10 →
      (performLocalization trig scan s).currentPosition = s.currentPosition ∧
      (performLocalization trig scan s).currentHeading = s.currentHeading ∧
      (performLocalization trig scan s).localizationConfidence = b.score) ∧
    (6/10 < b.score →
      ((4 < (b.pos.1 - s.currentPosition.1) ^ 2 +
            (b.pos.2 - s.currentPosition.2) ^ 2 ∨ 8/10 < b.score) →
        (performLocalization trig scan s).currentPosition = b.pos ∧
        (performLocalization trig scan s).currentHeading = b.heading ∧
        (performLocalization trig scan s).localizationConfidence = b.score) ∧
      ((b.pos.1 - s.currentPosition.1) ^ 2 +
            (b.pos.2 - s.currentPosition.2) ^ 2 ≤ 4 ∧ b.score ≤ 8/10 →
        performLocalization trig scan s = s)) := by
  have hguard : ¬(¬useMapLocalization = true ∨ columns s.mapData < 5) := by
    rintro (h | h)
    · exact h rfl
    · omega
  unfold searchAt at hb
  unfold performLocalization
  rw [if_neg hguard]
  rw [hb]
  dsimp only
  split_ifs with hA hB
  · refine ⟨fun hle => absurd hA (not_lt.2 hle),
      fun _ => ⟨fun _ => ⟨rfl, rfl, rfl⟩, ?_⟩⟩
    rintro ⟨hc1, hc2⟩
    rcases hB with h | h
    · exact absurd h (not_lt.2 hc1)
    · exact absurd h (not_lt.2 hc2)
  · exact ⟨fun hle => absurd hA (not_lt.2 hle),
      fun _ => ⟨fun hcase => absurd hcase hB, fun _ => rfl⟩⟩
  · exact ⟨fun _ => ⟨rfl, rfl, rfl⟩, fun hgt => absurd hgt hA⟩

theorem localization_confidence_rule_witness :
    (searchAt trig0 scanC locState = ⟨7/10, (0, 0), 330⟩ ∧ 5 ≤ columns m2) ∧
    performLocalization trig0 scanC locState = locState :=
  ⟨⟨searchAt_locState, by decide⟩,
    ((localization_confidence_rule trig0 scanC locState ⟨7/10, (0, 0), 330⟩
        searchAt_locState (by decide)).2 (by norm_num)).2
      ⟨by norm_num [locState, initialState], by norm_num⟩⟩

/-- Claim C3 counterexample: from a fresh state with an empty profile the
robot turns in place, its rounded grid position `(0, 0)` never changes,
yet the third planning cycle still emits `Turn` rather than `Complete`:
the revisit counter is not incremented on the first visit, so it has only
reached 2 by the third cycle's completion check. -/
theorem third_cycle_not_complete :
    runCycles trig0 [] 3 initialState =
      [Action.turn 45, Action.turn 45, Action.turn 45] := by
  with_unfolding_all decide

/-- Claim C3 (amended): `_check_completion`'s visit counter for the rounded
current position is incremented once per cycle only when that position is
already recorded in `explored_positions` — the first visit merely records
the position — and completion triggers when the counter reaches 3, i.e. on
the *fourth* planning cycle at the same rounded position: the chained
`checkCompletion` evaluations from the initial state return
`false, false, false, true`. -/
theorem revisit_counter_rule :
    (∀ s : MapperState,
      (pyRound s.currentPosition.1, pyRound s.currentPosition.2) ∉
          s.exploredPositions →
        checkRevisit s = (false,
          { s with exploredPositions := s.exploredPositions ++
              [(pyRound s.currentPosition.1, pyRound s.currentPosition.2)] })) ∧
    (∀ s : MapperState,
      (pyRound s.currentPosition.1, pyRound s.currentPosition.2) ∈
          s.exploredPositions →
        (checkRevisit s).2.positionVisitCount =
          alistSet (pyRound s.currentPosition.1, pyRound s.currentPosition.2)
            ((alistGet (pyRound s.currentPosition.1, pyRound s.currentPosition.2)
                s.positionVisitCount).getD 0 + 1) s.positionVisitCount ∧
        ((checkRevisit s).1 = true ↔
          2 ≤ (alistGet (pyRound s.currentPosition.1, pyRound s.currentPosition.2)
                s.positionVisitCount).getD 0)) ∧
    ((checkCompletion initialState).1 = false ∧
      (checkCompletion (checkCompletion initialState).2).1 = false ∧
      (checkCompletion (checkCompletion (checkCompletion initialState).2).2).1 =
        false ∧
      (checkCompletion (checkCompletion (checkCompletion
        (checkCompletion initialState).2).2).2).1 = true) := by
  refine ⟨?_, ?_, by with_unfolding_all decide⟩
  · intro s hmem
    unfold checkRevisit
    dsimp only
    rw [if_neg hmem]
  · intro s hmem
    unfold checkRevisit
    dsimp only
    rw [if_pos hmem]
    by_cases hc : 3 ≤ (alistGet (pyRound s.currentPosition.1,
        pyRound s.currentPosition.2) s.positionVisitCount).getD 0 + 1
    · rw [if_pos hc]
      refine ⟨rfl, ?_⟩
      simp only [true_iff]
      omega
    · rw [if_neg hc]
      refine ⟨rfl, ?_⟩
      simp only [Bool.false_eq_true, false_iff]
      omega

theorem revisit_counter_rule_witness :
    ((pyRound initialState.currentPosition.1,
        pyRound initialState.currentPosition.2) ∉
      initialState.exploredPositions) ∧
    checkRevisit initialState = (false,
      { initialState with exploredPositions := initialState.exploredPositions ++
          [(pyRound initialState.currentPosition.1,
            pyRound initialState.currentPosition.2)] }) :=
  ⟨by with_unfolding_all decide,
    revisit_counter_rule.1 initialState (by with_unfolding_all decide)⟩

/-- Claim C4 counterexample: `stabState` holds a map built by observing the
new cell `(0, 5)` under the already-present column `x = 0` (total cell
count 1 → 2) with `_last_cell_count = 1` and a stability counter of 1;
`_check_completion` nevertheless *increments* the counter to 2 instead of
resetting it to 0, because it measures `len(self.map_data)` — the number
of grid-x columns, still 1 — not the number of stored `(x, y)` cells. -/
theorem stability_not_reset :
    totalCells [((0:ℤ), [((0:ℤ), (40:ℚ))])] = 1 ∧
    totalCells stabState.mapData = 2 ∧
    columns stabState.mapData = 1 ∧
    (checkCompletion stabState).2.mapStabilityCounter = 2 := by
  with_unfolding_all decide

/-- Claim C4 (amended): the stability completion path of
`_check_completion` tracks the number of distinct grid-x columns
(`len(self.map_data)`), not the total `(x, y)` cell count: once
`_last_cell_count` is set, the counter increments exactly when the column
count is unchanged — declaring completion when it reaches 10 — and resets
to 0 exactly when the column count changes; adding a new grid-y entry
under an already-present column leaves the column count, and hence the
counter's progress, untouched. -/
theorem stability_tracks_columns (s : MapperState) (last : ℕ)
    (h1 : s.lastCellCount = some last) (h2 : s.consecutiveTurns < 5) :
    (columns s.mapData = last →
      (checkCompletion s).2.mapStabilityCounter = s.mapStabilityCounter + 1 ∧
      (10 ≤ s.mapStabilityCounter + 1 → (checkCompletion s).1 = true)) ∧
    (columns s.mapData ≠ last →
      (checkCompletion s).2.mapStabilityCounter = 0) := by
  unfold checkCompletion
  rw [if_neg (by omega : ¬5 ≤ s.consecutiveTurns)]
  dsimp only
  rw [h1]
  dsimp only
  refine ⟨?_, ?_⟩
  · intro heq
    rw [if_pos heq]
    by_cases h10 : 10 ≤ s.mapStabilityCounter + 1
    · rw [if_pos h10]
      exact ⟨rfl, fun _ => rfl⟩
    · rw [if_neg h10]
      exact ⟨(checkRevisit_fixed _).2.2.1, fun hc => absurd hc h10⟩
  · intro hne
    rw [if_neg hne]
    exact (checkRevisit_fixed _).2.2.1

theorem stability_tracks_columns_witness :
    (stabState.lastCellCount = some 1 ∧ stabState.consecutiveTurns < 5 ∧
      columns stabState.mapData = 1) ∧
    (checkCompletion stabState).2.mapStabilityCounter =
      stabState.mapStabilityCounter + 1 :=
  ⟨by with_unfolding_all decide,
    ((stability_tracks_columns stabState 1 (by with_unfolding_all decide)
      (by decide)).1 (by with_unfolding_all decide)).1⟩

/-- Claim C5 counterexample.  For `scan1` the winner is 60° with combined
score 300 (clearance 300, no gap bonus of its own), yet a gap at the
non-winning −60° direction sets `gap_found`, so the emitted distance is
`min(30, 20) = 20` where the claim requires the base 30 cm.  For `scan2`
the winner is 0° with clearance 60 (below the 80 cm small-space threshold)
but combined score 88 (above it), and the code emits distance 20 where the
claim — which compares the clearance before the gap bonus — requires
`min(15, 20) = 15`. -/
theorem move_distance_counterexample :
    (calculateClearance scan1 60 = 300 ∧ detectGap scan1 60 = 0 ∧
      detectGap scan1 (-60) = 16 ∧
      (planNextMove scan1 initialState).1 = Action.move 60 20) ∧
    (calculateClearance scan2 0 = 60 ∧ winningScore scan2 = 88 ∧
      (planNextMove scan2 initialState).1 = Action.move 0 20) := by
  with_unfolding_all decide

/-- Claim C5 (amended): when the completion check fails, no backup is due
and the winning combined score (clearance plus doubled gap bonus,
maximised over the seven candidates) is at least the 50 cm safe distance,
the planner emits a Move at the fold's winning angle whose distance is the
base 30 cm, reduced to 15 cm exactly when the winning *combined* score is
below the 80 cm small-space threshold, and capped to at most 20 cm exactly
when *any* candidate direction had a positive gap score (not only the
winner); the consecutive-turn counter is reset to 0. -/
theorem move_distance_rule (scan : Scan) (s : MapperState)
    (h1 : (checkCompletion s).1 = false) (h2 : s.noProgressCounter < 3)
    (h3 : 50 ≤ winningScore scan) :
    (planNextMove scan s).1 =
      Action.move (scoreDirections scan).bestAngle
        (if anyGap scan then min (if winningScore scan < 80 then 15 else 30) 20
         else if winningScore scan < 80 then 15 else 30) ∧
    (planNextMove scan s).2.consecutiveTurns = 0 := by
  have hspec := scoreDirections_spec scan
  have hnp := (checkCompletion_fixed s).1
  unfold planNextMove
  dsimp only
  rw [h1]
  simp only [Bool.false_eq_true, if_false]
  rw [hnp, if_neg (by omega : ¬3 ≤ s.noProgressCounter)]
  rw [hspec.1, hspec.2]
  rw [if_neg (not_lt.2 h3)]
  exact ⟨rfl, rfl⟩

theorem move_distance_rule_witness :
    ((checkCompletion initialState).1 = false ∧
      initialState.noProgressCounter < 3 ∧ 50 ≤ winningScore scan1) ∧
    (planNextMove scan1 initialState).1 =
      Action.move (scoreDirections scan1).bestAngle
        (if anyGap scan1 then min (if winningScore scan1 < 80 then 15 else 30) 20
         else if winningScore scan1 < 80 then 15 else 30) :=
  ⟨⟨by with_unfolding_all decide, by decide, by with_unfolding_all decide⟩,
    (move_distance_rule scan1 initialState (by with_unfolding_all decide)
      (by decide) (by with_unfolding_all decide)).1⟩

/-- Claim C6: the gated localization step of `_update_map` never modifies
the pose when the map holds at most 10 total `(x, y)` cells: for any
well-formed map (no empty stored columns — every map the program builds is
such, since `observe` never creates one), at most 10 cells means at most
10 columns, so the `len(self.map_data) > 10` gate fails and the state is
returned untouched, regardless of the profile's content. -/
theorem localization_noop_small_map (trig : ℚ → ℚ × ℚ) (scan : Scan)
    (s : MapperState) (hwf : ∀ p ∈ s.mapData, p.2 ≠ [])
    (hc : totalCells s.mapData ≤ 10) :
    gatedLocalization trig scan s = s := by
  unfold gatedLocalization
  rw [if_neg]
  rintro ⟨-, h10⟩
  have := columns_le_totalCells s.mapData hwf
  omega

theorem localization_noop_small_map_witness :
    ((∀ p ∈ stabState.mapData, p.2 ≠ []) ∧ totalCells stabState.mapData ≤ 10) ∧
    gatedLocalization trig0 [] stabState = stabState :=
  ⟨⟨by with_unfolding_all decide, by with_unfolding_all decide⟩,
    localization_noop_small_map trig0 [] stabState
      (by with_unfolding_all decide) (by with_unfolding_all decide)⟩

/-- Claim C7: `observe` is idempotent-minimal per cell.  On a cell that is
initially absent, the first observation stores the given distance and a
second observation leaves `min(d1, d2)`; concretely, observing 40 then 60
leaves 40, and observing 40 then 20 updates to 20.  `observe` is total —
it always succeeds and there are no error conditions. -/
theorem observe_idempotent_minimal (m : OccMap) (x y : ℤ) (d1 d2 : ℚ)
    (h : mapGet m x y = none) :
    mapGet (observe m x y d1) x y = some d1 ∧
    mapGet (observe (observe m x y d1) x y d2) x y = some (min d1 d2) ∧
    mapGet (observe (observe [] 2 3 40) 2 3 60) 2 3 = some 40 ∧
    mapGet (observe (observe [] 2 3 40) 2 3 20) 2 3 = some 20 := by
  have h1 := mapGet_observe m x y d1
  rw [h] at h1
  simp only [Option.elim] at h1
  have h2 := mapGet_observe (observe m x y d1) x y d2
  rw [h1] at h2
  simp only [Option.elim] at h2
  exact ⟨h1, h2, by with_unfolding_all decide, by with_unfolding_all decide⟩

theorem observe_idempotent_minimal_witness :
    mapGet ([] : OccMap) 5 7 = none ∧
    mapGet (observe ([] : OccMap) 5 7 40) 5 7 = some 40 :=
  ⟨by decide, (observe_idempotent_minimal [] 5 7 40 60 (by decide)).1⟩

/-- Claim C8 counterexample: with the consecutive-turn counter at 4 and an
empty profile (all candidate scores 0, below the safe distance), the
planner increments the counter to 5 — which *reaches* but does not exceed
the max-consecutive-turns limit — and emits `Complete`, where the claim
("unless the increment exceeds the limit") requires a fifth `Turn`. -/
theorem turn_limit_counterexample :
    (planNextMove [] { initialState with consecutiveTurns := 4 }).1 =
      Action.complete := by
  with_unfolding_all decide

/-- Claim C8 (amended): when the completion check fails, no backup is due
and every candidate direction scores below the 50 cm safe distance, the
planner increments the consecutive-turn counter and emits `Turn{45°}`
unless the incremented counter *reaches* the limit of 5, in which case it
emits `Complete` — so from a zero counter at most 4 such cycles can emit
`Turn`; moreover in the concrete stationary scenario (fresh state, empty
profile, position never changing) the position-revisit completion path
intervenes first: cycles 1–3 emit `Turn` and the 4th emits `Complete`. -/
theorem turn_branch_rule :
    (∀ (scan : Scan) (s : MapperState),
      (checkCompletion s).1 = false → s.noProgressCounter < 3 →
      winningScore scan < 50 →
      (s.consecutiveTurns + 1 < 5 →
        (planNextMove scan s).1 = Action.turn 45 ∧
        (planNextMove scan s).2.consecutiveTurns = s.consecutiveTurns + 1) ∧
      (5 ≤ s.consecutiveTurns + 1 →
        (planNextMove scan s).1 = Action.complete)) ∧
    runCycles trig0 [] 4 initialState =
      [Action.turn 45, Action.turn 45, Action.turn 45, Action.complete] := by
  constructor
  · intro scan s h1 h2 h3
    have hspec := scoreDirections_spec scan
    have hnp := (checkCompletion_fixed s).1
    have hct := (checkCompletion_fixed s).2.1
    unfold planNextMove
    dsimp only
    rw [h1]
    simp only [Bool.false_eq_true, if_false]
    rw [hnp, if_neg (by omega : ¬3 ≤ s.noProgressCounter)]
    rw [hspec.1, if_pos h3, hct]
    constructor
    · intro hlt
      rw [if_neg (by omega : ¬5 ≤ s.consecutiveTurns + 1)]
      exact ⟨rfl, rfl⟩
    · intro hge
      rw [if_pos hge]
  · with_unfolding_all decide

theorem turn_branch_rule_witness :
    ((checkCompletion initialState).1 = false ∧
      initialState.noProgressCounter < 3 ∧ winningScore [] < 50 ∧
      initialState.consecutiveTurns + 1 < 5) ∧
    (planNextMove [] initialState).1 = Action.turn 45 :=
  ⟨⟨by with_unfolding_all decide, by decide, by with_unfolding_all decide,
      by decide⟩,
    ((turn_branch_rule.1 [] initialState (by with_unfolding_all decide)
      (by decide) (by with_unfolding_all decide)).1 (by decide)).1⟩

/-- Case analysis helper for the localization pass: the heading it stores
is either the best candidate's heading (commit) or the original one. -/
theorem performLocalization_heading (trig : ℚ → ℚ × ℚ) (scan : Scan)
    (s : MapperState) (b : LocBest) (hb : searchAt trig scan s = b) :
    (performLocalization trig scan s).currentHeading = b.heading ∨
    (performLocalization trig scan s).currentHeading = s.currentHeading := by
  unfold searchAt at hb
  unfold performLocalization
  split
  · exact Or.inr rfl
  · rw [hb]
    dsimp only
    split_ifs
    · exact Or.inl rfl
    · exact Or.inr rfl
    · exact Or.inr rfl

/-- Claim C9: starting from any heading in `[0, 360)`, every state-mutating
operation keeps the stored heading in `[0, 360)`: `_execute_move` (a Turn,
a pre-Move turn, a Move without a turn, a Backup — which leaves the
heading untouched — or Complete) and `_perform_localization` (a committed
correction stores `(heading + offset) % 360`, anything else leaves the
heading unchanged), because every update takes the heading mod 360 and
Python's `%` with a positive modulus lands in `[0, 360)`. -/
theorem heading_range_invariant (trig : ℚ → ℚ × ℚ) (a : Action) (scan : Scan)
    (s : MapperState) (h0 : 0 ≤ s.currentHeading) (h1 : s.currentHeading < 360) :
    (0 ≤ (executeMove trig a s).currentHeading ∧
      (executeMove trig a s).currentHeading < 360) ∧
    (0 ≤ (performLocalization trig scan s).currentHeading ∧
      (performLocalization trig scan s).currentHeading < 360) := by
  constructor
  · cases a with
    | complete => exact ⟨h0, h1⟩
    | turn angle => exact pyMod_bounds _ _ (by norm_num)
    | backup dist => exact ⟨h0, h1⟩
    | move angle dist =>
      unfold executeMove
      dsimp only
      split_ifs <;>
        first
          | exact pyMod_bounds _ _ (by norm_num)
          | exact ⟨h0, h1⟩
  · rcases performLocalization_heading trig scan s (searchAt trig scan s) rfl
      with h | h
    · rw [h]
      exact localizationSearch_heading_range trig scan s.mapData
        s.currentPosition.1 s.currentPosition.2 s.currentHeading h0 h1
    · rw [h]
      exact ⟨h0, h1⟩

theorem heading_range_invariant_witness :
    ((0:ℚ) ≤ initialState.currentHeading ∧ initialState.currentHeading < 360) ∧
    ((0 ≤ (executeMove trig0 (Action.turn 45) initialState).currentHeading ∧
        (executeMove trig0 (Action.turn 45) initialState).currentHeading < 360) ∧
      (0 ≤ (performLocalization trig0 [] initialState).currentHeading ∧
        (performLocalization trig0 [] initialState).currentHeading < 360)) :=
  ⟨⟨by norm_num [initialState], by norm_num [initialState]⟩,
    heading_range_invariant trig0 (Action.turn 45) [] initialState
      (by norm_num [initialState]) (by norm_num [initialState])⟩

/-- Claim C10 (implicit): the scan-match score is always normalized to
`[0, 1]`: each counted profile point (those with `0 < distance ≤ 300`)
contributes at most 1 on an exact-cell agreement and at most `1/2` through
the neighbour credit, the total is divided by `max(total_points, 1)`, and
a profile with no counted points (here: one where every reading is
invalid) scores 0 at every pose — so the 0.6/0.8 confidence gates compare
against a normalized quantity and `_perform_localization` never commits a
pose change on an empty or fully-invalid profile. -/
theorem scanMatch_normalized (trig : ℚ → ℚ × ℚ) (scan : Scan) (m : OccMap)
    (tx ty th : ℚ) (s : MapperState) (d : ℚ) (l : List (ℤ × ℤ)) :
    (0 ≤ calculateScanMatch trig scan m tx ty th ∧
      calculateScanMatch trig scan m tx ty th ≤ 1) ∧
    (0 ≤ neighborScore m d l ∧ neighborScore m d l ≤ 1/2) ∧
    ((∀ p ∈ scan, p.2 ≤ 0 ∨ 300 < p.2) →
      calculateScanMatch trig scan m tx ty th = 0 ∧
      (performLocalization trig scan s).currentPosition = s.currentPosition ∧
      (performLocalization trig scan s).currentHeading = s.currentHeading) := by
  refine ⟨calculateScanMatch_bounds trig scan m tx ty th,
    neighborScore_bounds m d l, ?_⟩
  intro h
  exact ⟨calculateScanMatch_invalid trig scan m tx ty th h,
    (performLocalization_pose_invalid trig scan s h).1,
    (performLocalization_pose_invalid trig scan s h).2⟩

theorem scanMatch_normalized_witness :
    (∀ p ∈ ([(0, 400)] : Scan), p.2 ≤ 0 ∨ 300 < p.2) ∧
    ((0 ≤ calculateScanMatch trig0 [(0, 400)] m2 0 0 0 ∧
        calculateScanMatch trig0 [(0, 400)] m2 0 0 0 ≤ 1) ∧
      (0 ≤ neighborScore m2 100 (neighborCells 0 0) ∧
        neighborScore m2 100 (neighborCells 0 0) ≤ 1/2) ∧
      ((∀ p ∈ ([(0, 400)] : Scan), p.2 ≤ 0 ∨ 300 < p.2) →
        calculateScanMatch trig0 [(0, 400)] m2 0 0 0 = 0 ∧
        (performLocalization trig0 [(0, 400)] locState).currentPosition =
          locState.currentPosition ∧
        (performLocalization trig0 [(0, 400)] locState).currentHeading =
          locState.currentHeading)) :=
  ⟨by with_unfolding_all decide,
    scanMatch_normalized trig0 [(0, 400)] m2 0 0 0 locState 100
      (neighborCells 0 0)⟩

end CarMapper
